import Mathlib

/-!
Verification development for the `ai_sql_generator` pipeline
(`sql_generation_agent.py`).

The Python program is shallowly embedded:

* `pystrip` models Python's `str.strip()` (whitespace trimmed on both ends);
* `MappingRow` models one row of the transformation-spec table, with the
  optional columns as `Option String` (pandas `row.get(key, default)`);
* `group_by_target_table` models STEP 2 (a `defaultdict(list)` filled while
  iterating rows in order; Python dicts preserve insertion order);
* `build_prompt` models STEP 3 (the f-string prompt; `rows[0]` on an empty
  list raises `IndexError`, embedded as `Option.none`);
* `generate_sql`, `write_sql`, `commit_and_push` and `main` are embedded as
  explicit state-passing functions over `GitWorld`, producing an event trace.
-/

/-! ### Python `str.strip()` -/

/-- Characters removed by Python's default `str.strip()`. -/
def isPySpace (c : Char) : Bool :=
  c == ' ' || c == '\t' || c == '\n' || c == '\r' || c == '\x0b' || c == '\x0c'

/-- Drop leading whitespace (Python `lstrip`). -/
def lstripList (l : List Char) : List Char := l.dropWhile isPySpace

/-- Drop trailing whitespace (Python `rstrip`). -/
def rstripList (l : List Char) : List Char := (l.reverse.dropWhile isPySpace).reverse

/-- Python `str.strip()` on the character list. -/
def pystripList (l : List Char) : List Char := rstripList (lstripList l)

/-- Python `str.strip()`. -/
def pystrip (s : String) : String := String.mk (pystripList s.data)

theorem dropWhile_idem (p : Char → Bool) :
    ∀ l : List Char, (l.dropWhile p).dropWhile p = l.dropWhile p := by
  intro l
  induction l with
  | nil => rfl
  | cons c t ih =>
    by_cases h : p c
    · simp [List.dropWhile, h, ih]
    · simp [List.dropWhile, h]

theorem head_dropWhile (p : Char → Bool) :
    ∀ (l : List Char) (c : Char), (l.dropWhile p).head? = some c → p c = false := by
  intro l
  induction l with
  | nil => intro c h; simp [List.dropWhile] at h
  | cons x t ih =>
    intro c h
    by_cases hx : p x
    · exact ih c (by simpa [List.dropWhile, hx] using h)
    · simp [List.dropWhile, hx] at h
      simp [← h, hx]

theorem rstripList_head? (l : List Char) :
    rstripList l = [] ∨ (rstripList l).head? = l.head? := by
  have hsuff : l.reverse.dropWhile isPySpace <:+ l.reverse := List.dropWhile_suffix _
  obtain ⟨t, ht⟩ := hsuff
  have hdecomp : l = rstripList l ++ t.reverse := by
    calc l = l.reverse.reverse := (List.reverse_reverse l).symm
    _ = (t ++ l.reverse.dropWhile isPySpace).reverse := by rw [ht]
    _ = (l.reverse.dropWhile isPySpace).reverse ++ t.reverse := by rw [List.reverse_append]
    _ = rstripList l ++ t.reverse := rfl
  rcases heq : rstripList l with _ | ⟨c, rest⟩
  · exact Or.inl rfl
  · right
    conv_rhs => rw [hdecomp, heq]
    simp

theorem lstripList_of_head_not_space (l : List Char) :
    (∀ c, l.head? = some c → isPySpace c = false) → lstripList l = l := by
  intro h
  cases l with
  | nil => rfl
  | cons c t =>
    have := h c (by simp)
    simp [lstripList, List.dropWhile, this]

theorem lstripList_head_not_space (l : List Char) (c : Char) :
    (lstripList l).head? = some c → isPySpace c = false :=
  head_dropWhile isPySpace l c

theorem rstripList_last_not_space (l : List Char) (c : Char) :
    (rstripList l).getLast? = some c → isPySpace c = false := by
  intro h
  have : (l.reverse.dropWhile isPySpace).head? = some c := by
    simpa [rstripList] using h
  exact head_dropWhile isPySpace l.reverse c this

theorem pystripList_idem (l : List Char) :
    pystripList (pystripList l) = pystripList l := by
  have hl : lstripList (rstripList (lstripList l)) = rstripList (lstripList l) := by
    apply lstripList_of_head_not_space
    intro c hc
    rcases rstripList_head? (lstripList l) with h | h
    · rw [h] at hc; simp at hc
    · exact lstripList_head_not_space l c (by rw [← h]; exact hc)
  have hr : rstripList (rstripList (lstripList l)) = rstripList (lstripList l) := by
    simp [rstripList, dropWhile_idem]
  simp [pystripList] at *
  rw [hl, hr]

theorem pystrip_idem (s : String) : pystrip (pystrip s) = pystrip s := by
  simp [pystrip, pystripList_idem]

/-- Number of trailing newline characters of a string. -/
def trailingNewlineCount (s : String) : Nat :=
  (s.data.reverse.takeWhile (fun c => c == '\n')).length

theorem trailingNewlineCount_strip_newline (s : String) :
    trailingNewlineCount (pystrip s ++ "\n") = 1 := by
  have hdata : (pystrip s ++ "\n").data = pystripList s.data ++ ['\n'] := by
    simp [pystrip]
  rcases List.eq_nil_or_concat (pystripList s.data) with hnil | ⟨init, c, hinit⟩
  · simp [trailingNewlineCount, hdata, hnil, List.takeWhile]
  · rw [List.concat_eq_append] at hinit
    have hlast : (pystripList s.data).getLast? = some c := by
      rw [hinit]; exact List.getLast?_concat _
    have hcs : isPySpace c = false := rstripList_last_not_space (lstripList s.data) c hlast
    have hcn : (c == '\n') = false := by
      cases hcn : c == '\n'
      · rfl
      · exfalso
        have hc : c = '\n' := by simpa using hcn
        rw [hc] at hcs
        simp [isPySpace] at hcs
    simp [trailingNewlineCount, hdata, hinit, List.takeWhile, hcn]

/-! ### Data model: mapping rows and target keys -/

/-- One row of the transformation spec (`transformation_spec.csv`). Required
columns are plain `String` fields; the columns the code reads with
`row.get(key, default)` are `Option String`. -/
structure MappingRow where
  src_project : String
  src_dataset : String
  src_table : String
  src_column : String
  tgt_dataset : String
  tgt_table : String
  tgt_column : String
  transformation_rule : String
  filter_condition : Option String
  load_type : Option String
  watermark_column : Option String
deriving DecidableEq, Repr

/-- The pair `(tgt_dataset, tgt_table)` used as grouping key in STEP 2. -/
abbrev TargetKey := String × String

/-- The key `(row["tgt_dataset"], row["tgt_table"])` computed for each row. -/
def rowKey (r : MappingRow) : TargetKey := (r.tgt_dataset, r.tgt_table)

/-! ### STEP 2: `group_by_target_table` -/

/-- One iteration of the loop body: `grouped[key].append(row)` on a
`defaultdict(list)`.  Python dicts keep insertion order, so the dict is an
association list: an existing key gets the row appended to its bucket, a new
key is appended at the end. -/
def insertRow (acc : List (TargetKey × List MappingRow)) (k : TargetKey)
    (r : MappingRow) : List (TargetKey × List MappingRow) :=
  match acc with
  | [] => [(k, [r])]
  | (k', rs) :: rest =>
    if k' = k then (k', rs ++ [r]) :: rest else (k', rs) :: insertRow rest k r

/-- Model of `group_by_target_table(df)`: fold the rows in order through the
`defaultdict` insertion. -/
def group_by_target_table (df : List MappingRow) :
    List (TargetKey × List MappingRow) :=
  df.foldl (fun acc r => insertRow acc (rowKey r) r) []

/-- Lookup of one key's bucket in the grouped dict. -/
def groupLookup (g : List (TargetKey × List MappingRow)) (q : TargetKey) :
    List MappingRow :=
  match g with
  | [] => []
  | (k, rs) :: rest => if k = q then rs else groupLookup rest q

/-- The keys of the input rows in first-seen order. -/
def firstSeenKeys (df : List MappingRow) : List TargetKey :=
  df.foldl (fun ks r => if rowKey r ∈ ks then ks else ks ++ [rowKey r]) []

/-! ### STEP 3: `build_prompt` -/

/-- One element of the `column_instructions` list comprehension:
the f-string `- {src_column} → {tgt_column} : {transformation_rule}`. -/
def renderInstruction (r : MappingRow) : String :=
  "- " ++ r.src_column ++ " → " ++ r.tgt_column ++ " : " ++ r.transformation_rule

/-- The `column_instructions` list, in row order. -/
def columnInstructions (rows : List MappingRow) : List String :=
  rows.map renderInstruction

/-- The prompt f-string body, before `.strip()`, with every inserted piece as
an argument.  The layout is a transliteration of the Python triple-quoted
string (the leading newline after the opening quotes included). -/
def promptBody (srcProject srcDataset srcTable : String) (target_key : TargetKey)
    (instrs : List String) (filterC loadT watermarkC : String) : String :=
  "\nYou are a BigQuery SQL expert.\n\nGenerate a BigQuery SELECT query using the rules below.\n\nSOURCE:\n"
    ++ srcProject ++ "." ++ srcDataset ++ "." ++ srcTable
    ++ "\n\nTARGET:\n" ++ target_key.1 ++ "." ++ target_key.2
    ++ "\n\nCOLUMN RULES:\n" ++ String.intercalate "\n" instrs
    ++ "\n\nFILTER:\n" ++ filterC
    ++ "\n\nLOAD TYPE:\n" ++ loadT
    ++ "\n\nWATERMARK COLUMN:\n" ++ watermarkC
    ++ "\n\nREQUIREMENTS:\n- BigQuery SQL only\n- SELECT statement only (no CREATE / INSERT)\n- Proper column aliases\n- If incremental load, use dbt is_incremental() logic\n- Output ONLY SQL\n"

/-- The prompt assembled from explicit field values, stripped like the
Python `return prompt.strip()`. -/
def mkPrompt (srcProject srcDataset srcTable : String) (target_key : TargetKey)
    (instrs : List String) (filterC loadT watermarkC : String) : String :=
  pystrip (promptBody srcProject srcDataset srcTable target_key instrs filterC loadT watermarkC)

/-- Model of `build_prompt(target_key, rows)`.  `rows[0]` on an empty Python list
raises `IndexError`; that partiality is embedded as `none`.  All unit-level
fields are read from `rows[0]`, with `row.get` defaults `""`, `"full"`, `""`. -/
def build_prompt (target_key : TargetKey) (rows : List MappingRow) : Option String :=
  match rows with
  | [] => none
  | r0 :: _ =>
    some (pystrip (promptBody r0.src_project r0.src_dataset r0.src_table target_key
      (columnInstructions rows)
      (r0.filter_condition.getD "")
      (r0.load_type.getD "full")
      (r0.watermark_column.getD "")))

/-! ### Grouping lemmas -/

theorem insertRow_keys (acc : List (TargetKey × List MappingRow)) (k : TargetKey)
    (r : MappingRow) :
    (insertRow acc k r).map Prod.fst =
      if k ∈ acc.map Prod.fst then acc.map Prod.fst else acc.map Prod.fst ++ [k] := by
  induction acc with
  | nil => simp [insertRow]
  | cons p rest ih =>
    obtain ⟨k', rs⟩ := p
    by_cases hk : k' = k
    · subst hk
      simp [insertRow]
    · have hks : ¬ k = k' := fun h => hk h.symm
      simp only [insertRow, if_neg hk, List.map_cons, ih, List.mem_cons, hks, false_or]
      by_cases hmem : k ∈ rest.map Prod.fst <;> simp [hmem]

theorem groupLookup_insertRow (acc : List (TargetKey × List MappingRow))
    (k : TargetKey) (r : MappingRow) (q : TargetKey) :
    groupLookup (insertRow acc k r) q =
      if k = q then groupLookup acc q ++ [r] else groupLookup acc q := by
  induction acc with
  | nil =>
    by_cases hq : k = q <;> simp [insertRow, groupLookup, hq]
  | cons p rest ih =>
    obtain ⟨k', rs⟩ := p
    by_cases hk : k' = k
    · subst hk
      by_cases hq : k' = q <;> simp [insertRow, groupLookup, hq]
    · by_cases hq : k' = q
      · subst hq
        have : ¬ k = k' := fun h => hk h.symm
        simp [insertRow, hk, groupLookup, this]
      · simp [insertRow, hk, groupLookup, hq, ih]

theorem group_fold_lookup (df : List MappingRow)
    (acc : List (TargetKey × List MappingRow)) (q : TargetKey) :
    groupLookup (df.foldl (fun acc r => insertRow acc (rowKey r) r) acc) q =
      groupLookup acc q ++ df.filter (fun r => decide (rowKey r = q)) := by
  induction df generalizing acc with
  | nil => simp
  | cons r df ih =>
    simp only [List.foldl_cons]
    rw [ih, groupLookup_insertRow]
    by_cases hq : rowKey r = q
    · simp [hq, List.filter_cons]
    · simp [hq, List.filter_cons]

theorem group_fold_keys (df : List MappingRow)
    (acc : List (TargetKey × List MappingRow)) :
    (df.foldl (fun acc r => insertRow acc (rowKey r) r) acc).map Prod.fst =
      df.foldl (fun ks r => if rowKey r ∈ ks then ks else ks ++ [rowKey r])
        (acc.map Prod.fst) := by
  induction df generalizing acc with
  | nil => rfl
  | cons r df ih =>
    simp only [List.foldl_cons]
    rw [ih, insertRow_keys]

theorem firstSeen_fold_nodup (df : List MappingRow) (ks : List TargetKey)
    (h : ks.Nodup) :
    (df.foldl (fun ks r => if rowKey r ∈ ks then ks else ks ++ [rowKey r]) ks).Nodup := by
  induction df generalizing ks with
  | nil => exact h
  | cons r df ih =>
    simp only [List.foldl_cons]
    by_cases hmem : rowKey r ∈ ks
    · simp only [hmem, if_true]
      exact ih ks h
    · simp only [hmem, if_false]
      exact ih _ (by simp [List.nodup_append, h, hmem])

theorem insertRow_nonempty (acc : List (TargetKey × List MappingRow))
    (k : TargetKey) (r : MappingRow)
    (h : ∀ p ∈ acc, p.2 ≠ []) :
    ∀ p ∈ insertRow acc k r, p.2 ≠ [] := by
  induction acc with
  | nil =>
    intro p hp
    simp [insertRow] at hp
    simp [hp]
  | cons q rest ih =>
    obtain ⟨k', rs⟩ := q
    intro p hp
    by_cases hk : k' = k
    · subst hk
      simp [insertRow] at hp
      rcases hp with hp | hp
      · simp [hp]
      · exact h p (by simp [hp])
    · simp [insertRow, hk] at hp
      rcases hp with hp | hp
      · exact h p (by simp [hp])
      · exact ih (fun p hp => h p (by simp [hp])) p hp

theorem group_nonempty (df : List MappingRow) :
    ∀ p ∈ group_by_target_table df, p.2 ≠ [] := by
  suffices h : ∀ acc, (∀ p ∈ acc, p.2 ≠ []) →
      ∀ p ∈ df.foldl (fun acc r => insertRow acc (rowKey r) r) acc, p.2 ≠ [] by
    exact h [] (by simp)
  induction df with
  | nil => intro acc hacc; simpa using hacc
  | cons r df ih =>
    intro acc hacc
    simp only [List.foldl_cons]
    exact ih _ (insertRow_nonempty acc (rowKey r) r hacc)

/-- Claim C2: grouping places each row in exactly one output group, keyed by
the row's own `(tgt_dataset, tgt_table)`; the bucket of each key is exactly
the list of input rows with that key in input order, and the group keys are
the input keys in first-seen order, with no key occurring twice. -/
theorem grouping_partitions_rows (df : List MappingRow) :
    (∀ q : TargetKey,
      groupLookup (group_by_target_table df) q =
        df.filter (fun r => decide (rowKey r = q))) ∧
    (group_by_target_table df).map Prod.fst = firstSeenKeys df ∧
    ((group_by_target_table df).map Prod.fst).Nodup := by
  refine ⟨fun q => ?_, ?_, ?_⟩
  · simpa [group_by_target_table, groupLookup] using group_fold_lookup df [] q
  · simpa [group_by_target_table, firstSeenKeys] using group_fold_keys df []
  · rw [group_by_target_table, group_fold_keys df []]
    exact firstSeen_fold_nodup df [] (by simp)

/-- Claim C10: every group produced by the grouper is nonempty, so
`build_prompt`'s `rows[0]` access succeeds on every grouper output; on an
empty row list `build_prompt` has no result (the `rows[0]` access fails). -/
theorem grouper_feeds_builder_total (df : List MappingRow) :
    (∀ (k : TargetKey) (rs : List MappingRow),
      (k, rs) ∈ group_by_target_table df → rs ≠ [] ∧ (build_prompt k rs).isSome) ∧
    (∀ k : TargetKey, build_prompt k [] = none) := by
  constructor
  · intro k rs hmem
    have hne : rs ≠ [] := group_nonempty df (k, rs) hmem
    refine ⟨hne, ?_⟩
    cases rs with
    | nil => exact absurd rfl hne
    | cons r t => simp [build_prompt]
  · intro k
    rfl

/-- A sample spec row used to instantiate hypotheses of proved theorems. -/
def sampleRow1 : MappingRow :=
  { src_project := "proj", src_dataset := "raw", src_table := "orders_raw"
    src_column := "id", tgt_dataset := "analytics", tgt_table := "orders"
    tgt_column := "order_id", transformation_rule := "CAST(id AS INT64)"
    filter_condition := none, load_type := none, watermark_column := none }

/-- Witness for `grouper_feeds_builder_total` at a one-row input. -/
theorem grouper_feeds_builder_total_witness :
    [sampleRow1] ≠ [] ∧
      (build_prompt ("analytics", "orders") [sampleRow1]).isSome :=
  (grouper_feeds_builder_total [sampleRow1]).1 ("analytics", "orders") [sampleRow1]
    (by decide)

/-- Claim C8: `build_prompt` is deterministic — the same target key and rows
always produce byte-identical text — and the column instructions are the
rows' rendering `source_column → target_column : rule`, in row order. -/
theorem build_prompt_deterministic (k : TargetKey)
    (rows rows' : List MappingRow) (h : rows = rows') :
    build_prompt k rows = build_prompt k rows' ∧
    columnInstructions rows =
      rows.map (fun r =>
        "- " ++ (r.src_column ++ (" → " ++ (r.tgt_column ++
          (" : " ++ r.transformation_rule))))) := by
  subst h
  refine ⟨rfl, ?_⟩
  apply List.map_congr_left
  intro r _
  simp [renderInstruction, String.append_assoc]

/-- Witness for `build_prompt_deterministic` at a concrete row list. -/
theorem build_prompt_deterministic_witness :
    build_prompt ("analytics", "orders") [sampleRow1] =
      build_prompt ("analytics", "orders") [sampleRow1] ∧
    columnInstructions [sampleRow1] =
      [sampleRow1].map (fun r =>
        "- " ++ (r.src_column ++ (" → " ++ (r.tgt_column ++
          (" : " ++ r.transformation_rule))))) :=
  build_prompt_deterministic ("analytics", "orders") [sampleRow1] [sampleRow1] rfl

/-- Claim C9: the built request takes the source identity and the unit-level
`filter_condition`, `load_type` and `watermark_column` from the first row,
`filter_condition` and `watermark_column` defaulting to `""` and `load_type`
to `"full"` when the column is absent. -/
theorem build_prompt_uses_first_row (k : TargetKey) (r0 : MappingRow)
    (rest : List MappingRow) :
    build_prompt k (r0 :: rest) =
      some (mkPrompt r0.src_project r0.src_dataset r0.src_table k
        (columnInstructions (r0 :: rest))
        (r0.filter_condition.getD "") (r0.load_type.getD "full")
        (r0.watermark_column.getD "")) ∧
    build_prompt k ({ r0 with filter_condition := none } :: rest) =
      build_prompt k ({ r0 with filter_condition := some "" } :: rest) ∧
    build_prompt k ({ r0 with load_type := none } :: rest) =
      build_prompt k ({ r0 with load_type := some "full" } :: rest) ∧
    build_prompt k ({ r0 with watermark_column := none } :: rest) =
      build_prompt k ({ r0 with watermark_column := some "" } :: rest) :=
  ⟨rfl, rfl, rfl, rfl⟩

/-! ### File maps (path-indexed content) -/

/-- A finite map from path strings to file contents, as an association list
(first binding wins). -/
abbrev FileMap := List (String × String)

/-- Content at a path. -/
def fmLookup (m : FileMap) (p : String) : Option String :=
  match m with
  | [] => none
  | (q, v) :: rest => if q = p then some v else fmLookup rest p

/-- Write (create or overwrite) a path. -/
def fmInsert (m : FileMap) (p v : String) : FileMap :=
  match m with
  | [] => [(p, v)]
  | (q, w) :: rest => if q = p then (p, v) :: rest else (q, w) :: fmInsert rest p v

/-- The paths bound by a map. -/
def fmDom (m : FileMap) : List String := m.map Prod.fst

/-- Pointwise agreement of two maps on a list of paths. -/
def fmEqOn (ps : List String) (a b : FileMap) : Bool :=
  ps.all (fun p => decide (fmLookup a p = fmLookup b p))

theorem fmLookup_fmInsert (m : FileMap) (p v q : String) :
    fmLookup (fmInsert m p v) q = if p = q then some v else fmLookup m q := by
  induction m with
  | nil => by_cases h : p = q <;> simp [fmInsert, fmLookup, h]
  | cons b rest ih =>
    obtain ⟨x, w⟩ := b
    by_cases hx : x = p
    · subst hx
      by_cases h : x = q <;> simp [fmInsert, fmLookup, h]
    · by_cases h : x = q
      · subst h
        have : ¬ p = x := fun hh => hx hh.symm
        simp [fmInsert, hx, fmLookup, this]
      · simp [fmInsert, hx, fmLookup, h, ih]

theorem fmInsert_idem (m : FileMap) (p v : String) :
    fmInsert (fmInsert m p v) p v = fmInsert m p v := by
  induction m with
  | nil => simp [fmInsert]
  | cons b rest ih =>
    obtain ⟨x, w⟩ := b
    by_cases hx : x = p
    · subst hx
      simp [fmInsert]
    · simp [fmInsert, hx, ih]

theorem fmDom_fmInsert (m : FileMap) (p v : String) :
    fmDom (fmInsert m p v) = if p ∈ fmDom m then fmDom m else fmDom m ++ [p] := by
  induction m with
  | nil => simp [fmInsert, fmDom]
  | cons b rest ih =>
    obtain ⟨x, w⟩ := b
    by_cases hx : x = p
    · subst hx
      simp [fmInsert, fmDom]
    · have hpx : ¬ p = x := fun h => hx h.symm
      have ih' : List.map Prod.fst (fmInsert rest p v) =
          if p ∈ fmDom rest then fmDom rest else fmDom rest ++ [p] := ih
      by_cases hmem : p ∈ List.map Prod.fst rest
      · simp [fmInsert, hx, fmDom, ih', hmem, hpx]
      · simp [fmInsert, hx, fmDom, ih', hmem, hpx]

theorem mem_fmDom_fmInsert (m : FileMap) (p v q : String)
    (h : q ∈ fmDom (fmInsert m p v)) : q = p ∨ q ∈ fmDom m := by
  rw [fmDom_fmInsert] at h
  by_cases hmem : p ∈ fmDom m
  · rw [if_pos hmem] at h
    exact Or.inr h
  · rw [if_neg hmem] at h
    rcases List.mem_append.mp h with h | h
    · exact Or.inr h
    · simp at h
      exact Or.inl h

theorem fmLookup_isSome_fmInsert (m : FileMap) (p v q : String)
    (h : (fmLookup m q).isSome) : (fmLookup (fmInsert m p v) q).isSome := by
  rw [fmLookup_fmInsert]
  by_cases hpq : p = q <;> simp [hpq, h]

/-! ### The working-copy world -/

/-- The mutable state one pipeline run touches: whether the local clone
exists, the files on disk in the clone, the created directories, the git
index, the local branch head and the remote branch tip (the latter three as
tracked path → blob maps). -/
structure GitWorld where
  repoPresent : Bool
  disk : FileMap
  dirs : List String
  index : FileMap
  head : FileMap
  remote : FileMap
deriving DecidableEq, Repr

/-- Configuration constant `LOCAL_REPO_PATH`. -/
def LOCAL_REPO_PATH : String := "./transformations_dbt"

/-- Configuration constant `GIT_BRANCH` (single-branch model). -/
def GIT_BRANCH : String := "main"

/-- Model of `os.path.join` for the relative components the program uses. -/
def joinPath (a b : String) : String := a ++ "/" ++ b

/-- Model of `os.makedirs(folder_path, exist_ok=True)` on the directory set. -/
def dirsInsert (ds : List String) (d : String) : List String :=
  if d ∈ ds then ds else ds ++ [d]

/-! ### STEP 5: `write_sql` -/

/-- Model of `write_sql(repo_path, dataset, table, sql)`: create
`<repo_path>/models/<dataset>`, write `sql.strip() + "\n"` to
`<repo_path>/models/<dataset>/<table>.sql`, and return that path (exactly the
string `os.path.join` builds — relative when `repo_path` is relative). -/
def write_sql (w : GitWorld) (repo_path dataset table sql : String) :
    GitWorld × String :=
  let folder_path := joinPath (joinPath repo_path "models") dataset
  let file_path := joinPath folder_path (table ++ ".sql")
  ({ w with disk := fmInsert w.disk file_path (pystrip sql ++ "\n")
            dirs := dirsInsert w.dirs folder_path },
   file_path)

theorem dirsInsert_idem (ds : List String) (d : String) :
    dirsInsert (dirsInsert ds d) d = dirsInsert ds d := by
  by_cases h : d ∈ ds
  · simp [dirsInsert, h]
  · simp [dirsInsert, h]

theorem mem_dirsInsert (ds : List String) (d : String) : d ∈ dirsInsert ds d := by
  by_cases h : d ∈ ds <;> simp [dirsInsert, h]

/-- Claim C7: writing the same generated text to the same table path twice
leaves the entire world (file contents included) byte-identical to writing it
once, and returns the same path. -/
theorem write_sql_idempotent (w : GitWorld) (repo_path dataset table sql : String) :
    (write_sql (write_sql w repo_path dataset table sql).1
        repo_path dataset table sql).1 =
      (write_sql w repo_path dataset table sql).1 ∧
    (write_sql (write_sql w repo_path dataset table sql).1
        repo_path dataset table sql).2 =
      (write_sql w repo_path dataset table sql).2 := by
  constructor
  · simp only [write_sql]
    congr 1
    · exact fmInsert_idem _ _ _
    · exact dirsInsert_idem _ _
  · rfl

/-- A run starts from this world in the concrete instantiations below:
the local clone exists and everything is empty. -/
def emptyWorld : GitWorld :=
  { repoPresent := true, disk := [], dirs := [], index := [], head := [], remote := [] }

/-- A path is absolute when it starts with the root separator. -/
def isAbsolutePath (p : String) : Bool := decide (p.data.head? = some '/')

/-- Claim C6, counterexample: with base directory `./transformations_dbt`
(the configured `LOCAL_REPO_PATH`), dataset `analytics` and table `orders`,
`write_sql` does not write to `<output_dir>/<table>.sql` — the path has the
`models/<dataset>` infix — and the returned path is not absolute. -/
theorem write_sql_path_counterexample :
    (write_sql emptyWorld "./transformations_dbt" "analytics" "orders" "SELECT 1").2 ≠
      joinPath "./transformations_dbt" ("orders" ++ ".sql") ∧
    isAbsolutePath
      (write_sql emptyWorld "./transformations_dbt" "analytics" "orders" "SELECT 1").2 = false := by
  constructor
  · decide
  · decide

/-- Claim C6 (amended): `write_sql` writes the stripped text plus a single
trailing newline to `<repo_path>/models/<dataset>/<table>.sql`, creates the
`models/<dataset>` directory, leaves every other path untouched, and returns
that joined path verbatim (relative when `repo_path` is relative). -/
theorem write_sql_spec (w : GitWorld) (repo_path dataset table sql : String) :
    (write_sql w repo_path dataset table sql).2 =
      repo_path ++ "/models/" ++ dataset ++ "/" ++ table ++ ".sql" ∧
    fmLookup (write_sql w repo_path dataset table sql).1.disk
        (write_sql w repo_path dataset table sql).2 =
      some (pystrip sql ++ "\n") ∧
    trailingNewlineCount (pystrip sql ++ "\n") = 1 ∧
    (repo_path ++ "/models/" ++ dataset) ∈
      (write_sql w repo_path dataset table sql).1.dirs ∧
    (∀ q, q ≠ (write_sql w repo_path dataset table sql).2 →
      fmLookup (write_sql w repo_path dataset table sql).1.disk q = fmLookup w.disk q) := by
  have hfolder : joinPath (joinPath repo_path "models") dataset =
      repo_path ++ "/models/" ++ dataset := by
    apply String.ext
    simp [joinPath]
  have hpath : (write_sql w repo_path dataset table sql).2 =
      repo_path ++ "/models/" ++ dataset ++ "/" ++ table ++ ".sql" := by
    apply String.ext
    simp [write_sql, joinPath]
  refine ⟨hpath, ?_, trailingNewlineCount_strip_newline sql, ?_, ?_⟩
  · show fmLookup (fmInsert w.disk
        (joinPath (joinPath (joinPath repo_path "models") dataset) (table ++ ".sql"))
        (pystrip sql ++ "\n"))
        (joinPath (joinPath (joinPath repo_path "models") dataset) (table ++ ".sql")) =
      some (pystrip sql ++ "\n")
    rw [fmLookup_fmInsert]
    simp
  · rw [show (write_sql w repo_path dataset table sql).1.dirs =
        dirsInsert w.dirs (joinPath (joinPath repo_path "models") dataset) from rfl,
      hfolder]
    exact mem_dirsInsert _ _
  · intro q hq
    show fmLookup (fmInsert w.disk
        (joinPath (joinPath (joinPath repo_path "models") dataset) (table ++ ".sql"))
        (pystrip sql ++ "\n")) q = fmLookup w.disk q
    rw [fmLookup_fmInsert]
    apply if_neg
    intro h
    exact hq h.symm

/-- Witness for `write_sql_spec` at concrete arguments. -/
theorem write_sql_spec_witness :
    "other.txt" ≠ (write_sql emptyWorld LOCAL_REPO_PATH "analytics" "orders" "SELECT 1").2 ∧
    fmLookup (write_sql emptyWorld LOCAL_REPO_PATH "analytics" "orders" "SELECT 1").1.disk
      "other.txt" = fmLookup emptyWorld.disk "other.txt" :=
  ⟨by decide,
   (write_sql_spec emptyWorld LOCAL_REPO_PATH "analytics" "orders" "SELECT 1").2.2.2.2
     "other.txt" (by decide)⟩

/-! ### Errors -/

/-- The Python exception classes the program actually raises or lets
propagate.  Every explicit `raise` in the source is `raise RuntimeError(...)`;
`rows[0]` on an empty list would raise `IndexError`. -/
inductive ErrKind where
  | runtimeError
  | indexError
deriving DecidableEq, Repr

/-- A raised exception: its class and its message. -/
structure PyError where
  kind : ErrKind
  msg : String
deriving DecidableEq, Repr

/-- The error kind of a computation's outcome, if it failed. -/
def errKind {α : Type} (r : Except PyError α) : Option ErrKind :=
  match r with
  | .ok _ => none
  | .error e => some e.kind

/-- How the external CSV read (`pd.read_csv`) can fail. -/
inductive CsvFailure where
  | fileNotFound (f : String)
  | otherFailure (e : String)
deriving DecidableEq, Repr

/-! ### STEP 1: `load_metadata` -/

/-- Model of `load_metadata(csv_file)`: the external read either yields the rows or
fails; both failure shapes are re-raised as `RuntimeError` with the
corresponding message. -/
def load_metadata (csv : Except CsvFailure (List MappingRow)) :
    Except PyError (List MappingRow) :=
  match csv with
  | .ok df => .ok df
  | .error (.fileNotFound f) =>
    .error ⟨.runtimeError, "CSV file not found: " ++ f⟩
  | .error (.otherFailure e) =>
    .error ⟨.runtimeError, "Failed to read CSV: " ++ e⟩

/-! ### STEP 4: `generate_sql` -/

/-- Model of `generate_sql(prompt)`: one synchronous call to the oracle
(`ollama.chat`); on success the response content is stripped, on any failure
a `RuntimeError` with the `Ollama SQL generation failed:` prefix is raised. -/
def generate_sql (oracle : String → Except String String) (prompt : String) :
    Except PyError String :=
  match oracle prompt with
  | .ok content => .ok (pystrip content)
  | .error e => .error ⟨.runtimeError, "Ollama SQL generation failed: " ++ e⟩

/-! ### STEP 6: `commit_and_push` and the git state machine -/

/-- Observable pipeline actions, in execution order. -/
inductive Event where
  | cloneEvent
  | generateEvent (k : TargetKey)
  | writeEvent (path : String)
  | fetchResetEvent
  | stageEvent (path : String)
  | commitEvent (msg : String)
  | pushEvent
deriving DecidableEq, Repr

/-- Model of `Repo.clone_from(GIT_REPO_URL, LOCAL_REPO_PATH)`: a fresh clone of the
remote branch — disk, index and head all equal the remote tip. -/
def cloneRepo (w : GitWorld) : GitWorld :=
  { repoPresent := true, disk := w.remote, dirs := w.dirs,
    index := w.remote, head := w.remote, remote := w.remote }

/-- Model of `repo.git.fetch("origin"); repo.git.checkout(GIT_BRANCH);
repo.git.reset("--hard", f"origin/{GIT_BRANCH}")`: head and index become the
remote tip; on disk, every remote-tracked path takes its remote content and
every previously tracked path missing from the remote is removed; untracked
files survive. -/
def resetHard (w : GitWorld) : GitWorld :=
  { w with
    head := w.remote
    index := w.remote
    disk := w.remote ++ w.disk.filter (fun q =>
      (fmLookup w.remote q.1).isNone && (fmLookup w.head q.1).isNone &&
        (fmLookup w.index q.1).isNone) }

/-- Model of `repo.git.add(str(rel_path))` for one artifact path: stage the disk
content (or the deletion, when the file is gone). -/
def stageOne (w : GitWorld) (f : String) : GitWorld :=
  match fmLookup w.disk f with
  | some v => { w with index := fmInsert w.index f v }
  | none => { w with index := w.index.filter (fun q => !(q.1 == f)) }

/-- The staging loop `for f in files: repo.git.add(...)`. -/
def stageFiles (w : GitWorld) (files : List String) : GitWorld :=
  files.foldl stageOne w

/-- Model of `repo.is_dirty()` (GitPython default): a staged difference between index
and head, or an unstaged difference between worktree and index; untracked
files do not count. -/
def isDirty (w : GitWorld) : Bool :=
  !(fmEqOn (fmDom w.index ++ fmDom w.head) w.index w.head) ||
    (fmDom w.index).any (fun p => !(decide (fmLookup w.disk p = fmLookup w.index p)))

/-- The fixed commit message of the synchronizer. -/
def commitMessage : String := "AI: auto-generate BigQuery SQL"

/-- The happy path of `commit_and_push(repo_path, files)`: force a clean
state, stage each file, then commit and push only when dirty.  Path
resolution (`Path(f).resolve().relative_to(repo_root)`) is modelled by using
one canonical path string per file throughout. -/
def commit_and_push (w : GitWorld) (files : List String) : GitWorld × List Event :=
  let w1 := resetHard w
  let w2 := stageFiles w1 files
  if isDirty w2 then
    let w3 := { w2 with head := w2.index }
    let w4 := { w3 with remote := w3.head }
    (w4, Event.fetchResetEvent :: files.map Event.stageEvent ++
      [Event.commitEvent commitMessage, Event.pushEvent])
  else
    (w2, Event.fetchResetEvent :: files.map Event.stageEvent)

/-- Model of `commit_and_push` with its `except GitCommandError as e:` handler: a git
transport failure (abstracted all-or-nothing) is re-raised as `RuntimeError`
with the `Git operation failed:` prefix. -/
def commit_and_push_run (w : GitWorld) (files : List String)
    (gitErr : Option String) : Except PyError (GitWorld × List Event) :=
  match gitErr with
  | some e => .error ⟨.runtimeError, "Git operation failed: " ++ e⟩
  | none => .ok (commit_and_push w files)

/-! ### MAIN EXECUTION -/

/-- The per-unit loop body of `main`, recursively over the grouped units:
build prompt, generate, write, collect the path.  The first failure stops the
loop and is returned. -/
def runUnits (oracle : String → Except String String) (w : GitWorld) :
    List (TargetKey × List MappingRow) →
      GitWorld × List Event × Except PyError (List String)
  | [] => (w, [], .ok [])
  | (k, rows) :: rest =>
    match build_prompt k rows with
    | none => (w, [], .error ⟨.indexError, "list index out of range"⟩)
    | some prompt =>
      match generate_sql oracle prompt with
      | .error e => (w, [Event.generateEvent k], .error e)
      | .ok sql =>
        let wp := write_sql w LOCAL_REPO_PATH k.1 k.2 sql
        let res := runUnits oracle wp.1 rest
        (res.1, Event.generateEvent k :: Event.writeEvent wp.2 :: res.2.1,
          match res.2.2 with
          | .ok fs => .ok (wp.2 :: fs)
          | .error e => .error e)

/-- Model of `main()` (named `runMain` here since Lean reserves `main`): load, group,
clone when the working copy is absent, run the units, then commit and push;
the enclosing `try/except` turns the first raised error into a reported
failure (`Option PyError`) with no retry. -/
def runMain (w : GitWorld) (csv : Except CsvFailure (List MappingRow))
    (oracle : String → Except String String) (gitErr : Option String) :
    GitWorld × List Event × Option PyError :=
  match load_metadata csv with
  | .error e => (w, [], some e)
  | .ok df =>
    let grouped := group_by_target_table df
    let wc := if w.repoPresent then (w, ([] : List Event))
              else (cloneRepo w, [Event.cloneEvent])
    match runUnits oracle wc.1 grouped with
    | (w2, evs, .error e) => (w2, wc.2 ++ evs, some e)
    | (w2, evs, .ok files) =>
      match commit_and_push_run w2 files gitErr with
      | .error e => (w2, wc.2 ++ evs, some e)
      | .ok (w3, evs3) => (w3, wc.2 ++ evs ++ evs3, none)

/-! ### Event classifiers -/

def isCommitEv : Event → Bool
  | .commitEvent _ => true
  | _ => false

def isPushEv : Event → Bool
  | .pushEvent => true
  | _ => false

def isGenerateEv : Event → Bool
  | .generateEvent _ => true
  | _ => false

def isWriteEv : Event → Bool
  | .writeEvent _ => true
  | _ => false

/-! ### Git-state lemmas -/

theorem fmLookup_append (a b : FileMap) (p : String) :
    fmLookup (a ++ b) p =
      match fmLookup a p with
      | some v => some v
      | none => fmLookup b p := by
  induction a with
  | nil => simp [fmLookup]
  | cons q rest ih =>
    obtain ⟨x, v⟩ := q
    by_cases hx : x = p
    · simp [fmLookup, hx]
    · simp [fmLookup, hx, ih]

theorem fmLookup_isSome_iff (m : FileMap) (p : String) :
    (fmLookup m p).isSome ↔ p ∈ fmDom m := by
  induction m with
  | nil => simp [fmLookup, fmDom]
  | cons q rest ih =>
    obtain ⟨x, v⟩ := q
    by_cases hx : x = p
    · subst hx
      simp [fmLookup, fmDom]
    · have hpx : ¬ p = x := fun h => hx h.symm
      simp [fmLookup, hx, fmDom, hpx, ih]

theorem resetHard_head (w : GitWorld) : (resetHard w).head = w.remote := rfl

theorem resetHard_index (w : GitWorld) : (resetHard w).index = w.remote := rfl

theorem resetHard_disk_tracked (w : GitWorld) (p : String)
    (h : (fmLookup w.remote p).isSome) :
    fmLookup (resetHard w).disk p = fmLookup w.remote p := by
  show fmLookup (w.remote ++ _) p = fmLookup w.remote p
  rw [fmLookup_append]
  rcases hl : fmLookup w.remote p with _ | v
  · rw [hl] at h
    simp at h
  · rfl

theorem stageFiles_clean_inv (w0 : GitWorld) (files : List String)
    (hfiles : ∀ f ∈ files, (fmLookup w0.remote f).isSome) :
    ∀ w' : GitWorld,
      w'.head = w0.remote →
      w'.disk = (resetHard w0).disk →
      (∀ p, fmLookup w'.index p = fmLookup w0.remote p) →
      (∀ p, p ∈ fmDom w'.index → p ∈ fmDom w0.remote) →
      (stageFiles w' files).head = w0.remote ∧
      (stageFiles w' files).disk = (resetHard w0).disk ∧
      (∀ p, fmLookup (stageFiles w' files).index p = fmLookup w0.remote p) ∧
      (∀ p, p ∈ fmDom (stageFiles w' files).index → p ∈ fmDom w0.remote) := by
  induction files with
  | nil => intro w' h1 h2 h3 h4; exact ⟨h1, h2, h3, h4⟩
  | cons f fs ih =>
    intro w' h1 h2 h3 h4
    have hf : (fmLookup w0.remote f).isSome := hfiles f (by simp)
    have hdiskf : fmLookup w'.disk f = fmLookup w0.remote f := by
      rw [h2]
      exact resetHard_disk_tracked w0 f hf
    rcases hd : fmLookup w'.disk f with _ | v
    · rw [hd] at hdiskf
      rw [← hdiskf] at hf
      simp at hf
    · have hv : some v = fmLookup w0.remote f := by rw [← hd, hdiskf]
      have hstage : stageOne w' f = { w' with index := fmInsert w'.index f v } := by
        rw [stageOne, hd]
      have hstep : stageFiles w' (f :: fs) =
          stageFiles { w' with index := fmInsert w'.index f v } fs := by
        show (f :: fs).foldl stageOne w' = _
        rw [List.foldl_cons, hstage]
        rfl
      rw [hstep]
      refine ih (fun g hg => hfiles g (by simp [hg])) _ h1 h2 ?_ ?_
      · intro p
        show fmLookup (fmInsert w'.index f v) p = fmLookup w0.remote p
        rw [fmLookup_fmInsert]
        by_cases hfp : f = p
        · subst hfp
          simp [hv]
        · simp [hfp, h3 p]
      · intro p hp
        rcases mem_fmDom_fmInsert w'.index f v p hp with hpf | hpm
        · subst hpf
          exact (fmLookup_isSome_iff w0.remote p).mp hf
        · exact h4 p hpm

theorem staged_clean_of_tracked (w : GitWorld) (files : List String)
    (hfiles : ∀ f ∈ files, (fmLookup w.remote f).isSome) :
    isDirty (stageFiles (resetHard w) files) = false := by
  have hinv := stageFiles_clean_inv w files hfiles (resetHard w)
    (resetHard_head w) rfl
    (by intro p; rw [resetHard_index])
    (by intro p hp; rwa [resetHard_index] at hp)
  obtain ⟨hhead, hdisk, hidx, hdom⟩ := hinv
  have h1 : fmEqOn
      (fmDom (stageFiles (resetHard w) files).index ++
        fmDom (stageFiles (resetHard w) files).head)
      (stageFiles (resetHard w) files).index
      (stageFiles (resetHard w) files).head = true := by
    rw [fmEqOn, List.all_eq_true]
    intro p _
    apply decide_eq_true
    rw [hidx p, hhead]
  have h2 : (fmDom (stageFiles (resetHard w) files).index).any
      (fun p => !(decide (fmLookup (stageFiles (resetHard w) files).disk p =
        fmLookup (stageFiles (resetHard w) files).index p))) = false := by
    rw [List.any_eq_false]
    intro p hp
    have hps : (fmLookup w.remote p).isSome :=
      (fmLookup_isSome_iff w.remote p).mpr (hdom p hp)
    have heq : fmLookup (stageFiles (resetHard w) files).disk p =
        fmLookup (stageFiles (resetHard w) files).index p := by
      rw [hdisk, hidx p, resetHard_disk_tracked w p hps]
    simp [heq]
  rw [isDirty, h1, h2]
  rfl

theorem countP_stage_commit (files : List String) :
    (files.map Event.stageEvent).countP isCommitEv = 0 := by
  induction files with
  | nil => rfl
  | cons f fs ih => simp [List.countP_cons, isCommitEv, ih]

theorem countP_stage_push (files : List String) :
    (files.map Event.stageEvent).countP isPushEv = 0 := by
  induction files with
  | nil => rfl
  | cons f fs ih => simp [List.countP_cons, isPushEv, ih]

/-- Claim C3: after reset and staging, the synchronizer commits and pushes
exactly once — with the fixed message — iff the working copy is dirty, and
does nothing when clean; staging paths whose bytes already sit at the remote
tip always leaves the copy clean, so a second byte-identical run performs no
commit and no push. -/
theorem commit_if_dirty_semantics (w : GitWorld) (files : List String) :
    (isDirty (stageFiles (resetHard w) files) = true →
      (commit_and_push w files).2.countP isCommitEv = 1 ∧
      (commit_and_push w files).2.countP isPushEv = 1 ∧
      (∀ m, Event.commitEvent m ∈ (commit_and_push w files).2 → m = commitMessage) ∧
      (commit_and_push w files).1.remote = (stageFiles (resetHard w) files).index) ∧
    (isDirty (stageFiles (resetHard w) files) = false →
      (∀ m, Event.commitEvent m ∉ (commit_and_push w files).2) ∧
      Event.pushEvent ∉ (commit_and_push w files).2) ∧
    ((∀ f ∈ files, (fmLookup w.remote f).isSome) →
      isDirty (stageFiles (resetHard w) files) = false) := by
  refine ⟨?_, ?_, staged_clean_of_tracked w files⟩
  · intro hd
    have htr : (commit_and_push w files).2 =
        Event.fetchResetEvent :: (files.map Event.stageEvent ++
          [Event.commitEvent commitMessage, Event.pushEvent]) := by
      simp only [commit_and_push, hd, if_true]
      simp
    have hst : (commit_and_push w files).1.remote =
        (stageFiles (resetHard w) files).index := by
      simp only [commit_and_push, hd, if_true]
    refine ⟨?_, ?_, ?_, hst⟩
    · rw [htr]
      simp [List.countP_cons, List.countP_append, countP_stage_commit, isCommitEv]
    · rw [htr]
      simp [List.countP_cons, List.countP_append, countP_stage_push, isPushEv]
    · intro m hm
      rw [htr] at hm
      simp at hm
      exact hm
  · intro hd
    have htr : (commit_and_push w files).2 =
        Event.fetchResetEvent :: files.map Event.stageEvent := by
      simp only [commit_and_push, hd, if_false, Bool.false_eq_true]
    constructor
    · intro m hm
      rw [htr] at hm
      simp at hm
    · intro hm
      rw [htr] at hm
      simp at hm

/-- The world after one artifact write into a fresh (empty-remote) clone. -/
def writtenWorld : GitWorld :=
  (write_sql emptyWorld LOCAL_REPO_PATH "analytics" "orders" "SELECT 1").1

/-- The path of that artifact. -/
def writtenPath : String :=
  (write_sql emptyWorld LOCAL_REPO_PATH "analytics" "orders" "SELECT 1").2

/-- Witness for `commit_if_dirty_semantics`: a new untracked artifact makes
the copy dirty and yields exactly one commit; with every staged path already
tracked at the remote tip (vacuously here), the copy stays clean. -/
theorem commit_if_dirty_semantics_witness :
    (commit_and_push writtenWorld [writtenPath]).2.countP isCommitEv = 1 ∧
    isDirty (stageFiles (resetHard emptyWorld) []) = false :=
  ⟨((commit_if_dirty_semantics writtenWorld [writtenPath]).1 (by decide)).1,
   (commit_if_dirty_semantics emptyWorld []).2.2 (by simp)⟩

/-! ### Unit-loop lemmas -/

/-- The artifact path `main` passes to `write_sql` for a unit key. -/
def unitPath (k : TargetKey) : String :=
  joinPath (joinPath (joinPath LOCAL_REPO_PATH "models") k.1) (k.2 ++ ".sql")

/-- The two events a successfully processed unit contributes. -/
def unitTrace (u : TargetKey × List MappingRow) : List Event :=
  [Event.generateEvent u.1, Event.writeEvent (unitPath u.1)]

theorem runUnits_disk_mono (oracle : String → Except String String)
    (units : List (TargetKey × List MappingRow)) :
    ∀ (w : GitWorld) (p : String), (fmLookup w.disk p).isSome →
      (fmLookup (runUnits oracle w units).1.disk p).isSome := by
  induction units with
  | nil => intro w p h; exact h
  | cons u rest ih =>
    obtain ⟨k, rows⟩ := u
    intro w p h
    rcases hbp : build_prompt k rows with _ | prompt
    · simpa [runUnits, hbp] using h
    · rcases hg : generate_sql oracle prompt with e | sql
      · simpa [runUnits, hbp, hg] using h
      · have : (fmLookup (write_sql w LOCAL_REPO_PATH k.1 k.2 sql).1.disk p).isSome := by
          show (fmLookup (fmInsert w.disk _ _) p).isSome
          exact fmLookup_isSome_fmInsert _ _ _ _ h
        simpa [runUnits, hbp, hg] using ih _ p this

theorem runUnits_fail_shape (oracle : String → Except String String)
    (pre : List (TargetKey × List MappingRow)) (k : TargetKey)
    (rows : List MappingRow) (post : List (TargetKey × List MappingRow))
    (hpre : ∀ u ∈ pre, ∃ prompt sql,
      build_prompt u.1 u.2 = some prompt ∧ oracle prompt = Except.ok sql)
    (hfail : ∃ prompt e,
      build_prompt k rows = some prompt ∧ oracle prompt = Except.error e) :
    ∀ w : GitWorld,
      (∃ e, (runUnits oracle w (pre ++ (k, rows) :: post)).2.2 =
        Except.error ⟨ErrKind.runtimeError, "Ollama SQL generation failed: " ++ e⟩) ∧
      (runUnits oracle w (pre ++ (k, rows) :: post)).2.1 =
        (pre.map unitTrace).flatten ++ [Event.generateEvent k] ∧
      (∀ u ∈ pre,
        (fmLookup (runUnits oracle w (pre ++ (k, rows) :: post)).1.disk
          (unitPath u.1)).isSome) := by
  induction pre with
  | nil =>
    intro w
    obtain ⟨prompt, e, hbp, he⟩ := hfail
    have hg : generate_sql oracle prompt =
        Except.error ⟨ErrKind.runtimeError, "Ollama SQL generation failed: " ++ e⟩ := by
      rw [generate_sql, he]
    refine ⟨⟨e, ?_⟩, ?_, by simp⟩
    · simp [runUnits, hbp, hg]
    · simp [runUnits, hbp, hg]
  | cons u pre' ih =>
    intro w
    obtain ⟨ku, rowsu⟩ := u
    obtain ⟨promptu, squ, hbpu, hou⟩ := hpre (ku, rowsu) (by simp)
    have hgu : generate_sql oracle promptu = Except.ok (pystrip squ) := by
      rw [generate_sql, hou]
    have ih' := ih (fun v hv => hpre v (by simp [hv]))
      (write_sql w LOCAL_REPO_PATH ku.1 ku.2 (pystrip squ)).1
    obtain ⟨⟨e, herr⟩, htr, hdisk⟩ := ih'
    have hwp : (write_sql w LOCAL_REPO_PATH ku.1 ku.2 (pystrip squ)).2 =
        unitPath ku := rfl
    refine ⟨⟨e, ?_⟩, ?_, ?_⟩
    · simp only [List.cons_append, runUnits, hbpu, hgu, List.append_eq]
      rw [herr]
    · simp only [List.cons_append, runUnits, hbpu, hgu, List.append_eq]
      rw [htr]
      simp [unitTrace]
      exact hwp
    · intro v hv
      rcases List.mem_cons.mp hv with hv | hv
      · subst hv
        have hw : (fmLookup
            (write_sql w LOCAL_REPO_PATH ku.1 ku.2 (pystrip squ)).1.disk
            (unitPath ku)).isSome := by
          show (fmLookup (fmInsert w.disk (unitPath ku) _) (unitPath ku)).isSome
          rw [fmLookup_fmInsert]
          simp
        have := runUnits_disk_mono oracle (pre' ++ (k, rows) :: post) _ _ hw
        simpa [runUnits, hbpu, hgu] using this
      · have := hdisk v hv
        simpa [runUnits, hbpu, hgu] using this

theorem countP_join_unitTrace (p : Event → Bool)
    (hgen : ∀ k, p (Event.generateEvent k) = false)
    (hwrite : ∀ q, p (Event.writeEvent q) = false)
    (pre : List (TargetKey × List MappingRow)) :
    ((pre.map unitTrace).flatten).countP p = 0 := by
  induction pre with
  | nil => rfl
  | cons u t ih =>
    simp [unitTrace, List.countP_cons, List.countP_append, ih, hgen, hwrite]

/-- Claim C4: if the oracle fails on unit k of the grouped sequence, the run
reports that generation failure; the trace is exactly the clone (when
needed), the per-unit events of the units before k, and the failing
generation call — so no later unit starts and no commit or push happens —
while the files already written for earlier units are still on disk. -/
theorem oracle_failure_isolation (w : GitWorld) (df : List MappingRow)
    (oracle : String → Except String String) (gitErr : Option String)
    (pre : List (TargetKey × List MappingRow)) (k : TargetKey)
    (rows : List MappingRow) (post : List (TargetKey × List MappingRow))
    (hgrp : group_by_target_table df = pre ++ (k, rows) :: post)
    (hpre : ∀ u ∈ pre, ∃ prompt sql,
      build_prompt u.1 u.2 = some prompt ∧ oracle prompt = Except.ok sql)
    (hfail : ∃ prompt e,
      build_prompt k rows = some prompt ∧ oracle prompt = Except.error e) :
    (∃ e, (runMain w (Except.ok df) oracle gitErr).2.2 =
      some ⟨ErrKind.runtimeError, "Ollama SQL generation failed: " ++ e⟩) ∧
    (runMain w (Except.ok df) oracle gitErr).2.1 =
      (if w.repoPresent then ([] : List Event) else [Event.cloneEvent]) ++
        ((pre.map unitTrace).flatten ++ [Event.generateEvent k]) ∧
    (∀ u ∈ pre,
      (fmLookup (runMain w (Except.ok df) oracle gitErr).1.disk
        (unitPath u.1)).isSome) ∧
    (runMain w (Except.ok df) oracle gitErr).2.1.countP isCommitEv = 0 ∧
    (runMain w (Except.ok df) oracle gitErr).2.1.countP isPushEv = 0 := by
  cases hrp : w.repoPresent with
  | true =>
    obtain ⟨⟨e, herr⟩, htrace, hdiskall⟩ :=
      runUnits_fail_shape oracle pre k rows post hpre hfail w
    have hred : runMain w (Except.ok df) oracle gitErr =
        ((runUnits oracle w (pre ++ (k, rows) :: post)).1,
         (runUnits oracle w (pre ++ (k, rows) :: post)).2.1,
         some ⟨ErrKind.runtimeError, "Ollama SQL generation failed: " ++ e⟩) := by
      simp only [runMain, load_metadata, hgrp, hrp, if_true]
      rcases hru : runUnits oracle w (pre ++ (k, rows) :: post) with ⟨W, T, R⟩
      rw [hru] at herr
      simp only at herr
      subst herr
      simp
    rw [hred]
    refine ⟨⟨e, rfl⟩, by simpa using htrace, hdiskall, ?_, ?_⟩
    · rw [htrace]
      simp [List.countP_append,
        countP_join_unitTrace isCommitEv (fun _ => rfl) (fun _ => rfl),
        List.countP_cons, isCommitEv]
    · rw [htrace]
      simp [List.countP_append,
        countP_join_unitTrace isPushEv (fun _ => rfl) (fun _ => rfl),
        List.countP_cons, isPushEv]
  | false =>
    obtain ⟨⟨e, herr⟩, htrace, hdiskall⟩ :=
      runUnits_fail_shape oracle pre k rows post hpre hfail (cloneRepo w)
    have hred : runMain w (Except.ok df) oracle gitErr =
        ((runUnits oracle (cloneRepo w) (pre ++ (k, rows) :: post)).1,
         Event.cloneEvent ::
           (runUnits oracle (cloneRepo w) (pre ++ (k, rows) :: post)).2.1,
         some ⟨ErrKind.runtimeError, "Ollama SQL generation failed: " ++ e⟩) := by
      simp only [runMain, load_metadata, hgrp, hrp, if_false, Bool.false_eq_true]
      rcases hru : runUnits oracle (cloneRepo w) (pre ++ (k, rows) :: post)
        with ⟨W, T, R⟩
      rw [hru] at herr
      simp only at herr
      subst herr
      simp
    rw [hred]
    refine ⟨⟨e, rfl⟩, by simpa using htrace, hdiskall, ?_, ?_⟩
    · rw [show (Event.cloneEvent ::
          (runUnits oracle (cloneRepo w) (pre ++ (k, rows) :: post)).2.1).countP
            isCommitEv =
          ((runUnits oracle (cloneRepo w)
            (pre ++ (k, rows) :: post)).2.1).countP isCommitEv from by
        simp [List.countP_cons, isCommitEv], htrace]
      simp [List.countP_append,
        countP_join_unitTrace isCommitEv (fun _ => rfl) (fun _ => rfl),
        List.countP_cons, isCommitEv]
    · rw [show (Event.cloneEvent ::
          (runUnits oracle (cloneRepo w) (pre ++ (k, rows) :: post)).2.1).countP
            isPushEv =
          ((runUnits oracle (cloneRepo w)
            (pre ++ (k, rows) :: post)).2.1).countP isPushEv from by
        simp [List.countP_cons, isPushEv], htrace]
      simp [List.countP_append,
        countP_join_unitTrace isPushEv (fun _ => rfl) (fun _ => rfl),
        List.countP_cons, isPushEv]

/-- Second sample row, mapping to target `(analytics, customers)`. -/
def sampleRow2 : MappingRow :=
  { src_project := "proj", src_dataset := "raw", src_table := "customers_raw"
    src_column := "cid", tgt_dataset := "analytics", tgt_table := "customers"
    tgt_column := "customer_id", transformation_rule := "CAST(cid AS INT64)"
    filter_condition := none, load_type := none, watermark_column := none }

/-- Third sample row, mapping to target `(analytics, payments)`. -/
def sampleRow3 : MappingRow :=
  { src_project := "proj", src_dataset := "raw", src_table := "payments_raw"
    src_column := "pid", tgt_dataset := "analytics", tgt_table := "payments"
    tgt_column := "payment_id", transformation_rule := "CAST(pid AS INT64)"
    filter_condition := none, load_type := none, watermark_column := none }

/-- A three-row spec producing three one-row units. -/
def sampleDf : List MappingRow := [sampleRow1, sampleRow2, sampleRow3]

/-- The prompt of the first sample unit. -/
def samplePrompt1 : String :=
  (build_prompt ("analytics", "orders") [sampleRow1]).getD ""

/-- The prompt of the second sample unit. -/
def samplePrompt2 : String :=
  (build_prompt ("analytics", "customers") [sampleRow2]).getD ""

/-- An oracle that fails exactly on the second sample unit's prompt. -/
def failOracle : String → Except String String :=
  fun p => if p = samplePrompt2 then Except.error "connection refused"
           else Except.ok "SELECT 1"

/-- Witness for `oracle_failure_isolation`: on the three sample units with
the oracle failing on the second, the first unit's file is on disk and no
commit happened. -/
theorem oracle_failure_isolation_witness :
    (fmLookup (runMain emptyWorld (Except.ok sampleDf) failOracle none).1.disk
      (unitPath ("analytics", "orders"))).isSome ∧
    (runMain emptyWorld (Except.ok sampleDf) failOracle none).2.1.countP
      isCommitEv = 0 := by
  have h := oracle_failure_isolation emptyWorld sampleDf failOracle none
    [(("analytics", "orders"), [sampleRow1])]
    ("analytics", "customers") [sampleRow2]
    [(("analytics", "payments"), [sampleRow3])]
    (by decide)
    (by
      intro u hu
      simp only [List.mem_singleton] at hu
      subst hu
      refine ⟨samplePrompt1, "SELECT 1", rfl, ?_⟩
      show (if samplePrompt1 = samplePrompt2 then Except.error "connection refused"
            else Except.ok "SELECT 1") = Except.ok "SELECT 1"
      rw [if_neg (by decide)])
    (by
      refine ⟨samplePrompt2, "connection refused", rfl, ?_⟩
      show (if samplePrompt2 = samplePrompt2 then Except.error "connection refused"
            else Except.ok "SELECT 1") = Except.error "connection refused"
      rw [if_pos rfl])
  exact ⟨h.2.2.1 (("analytics", "orders"), [sampleRow1]) (by simp), h.2.2.2.1⟩

theorem runUnits_no_push (oracle : String → Except String String)
    (units : List (TargetKey × List MappingRow)) :
    ∀ w : GitWorld, ((runUnits oracle w units).2.1).countP isPushEv = 0 := by
  induction units with
  | nil => intro w; rfl
  | cons u rest ih =>
    obtain ⟨k, rows⟩ := u
    intro w
    rcases hbp : build_prompt k rows with _ | prompt
    · simp [runUnits, hbp]
    · rcases hg : generate_sql oracle prompt with e | sql
      · simp [runUnits, hbp, hg, List.countP_cons, isPushEv]
      · simp [runUnits, hbp, hg, List.countP_cons, isPushEv, ih]

/-- Claim C5, counterexample: the loader, the generator and the synchronizer
do not fail with distinct error kinds — a missing CSV, an oracle transport
failure and a git failure all surface as the same `RuntimeError` kind. -/
theorem error_kinds_not_distinct_counterexample :
    errKind (load_metadata
      (Except.error (CsvFailure.fileNotFound "transformation_spec.csv"))) =
      errKind (generate_sql (fun _ => Except.error "connection refused") "p") ∧
    errKind (generate_sql (fun _ => Except.error "connection refused") "p") =
      errKind (commit_and_push_run emptyWorld [] (some "push rejected")) :=
  ⟨rfl, rfl⟩

/-- Claim C5 (amended): every failure the program raises itself is the single
kind `RuntimeError`, distinguished only by a component-specific message
prefix (`CSV ...`, `Ollama SQL generation failed:`, `Git operation failed:`);
the driver retries nothing — the generator is called at most once per unit,
and a run that reports a failure performed no push. -/
theorem single_error_kind_no_retry :
    (∀ f, load_metadata (Except.error (CsvFailure.fileNotFound f)) =
      Except.error ⟨ErrKind.runtimeError, "CSV file not found: " ++ f⟩) ∧
    (∀ e, load_metadata (Except.error (CsvFailure.otherFailure e)) =
      Except.error ⟨ErrKind.runtimeError, "Failed to read CSV: " ++ e⟩) ∧
    (∀ (oracle : String → Except String String) p e, oracle p = Except.error e →
      generate_sql oracle p =
        Except.error ⟨ErrKind.runtimeError, "Ollama SQL generation failed: " ++ e⟩) ∧
    (∀ w files e, commit_and_push_run w files (some e) =
      Except.error ⟨ErrKind.runtimeError, "Git operation failed: " ++ e⟩) ∧
    (∀ (oracle : String → Except String String) units (w : GitWorld),
      ((runUnits oracle w units).2.1).countP isGenerateEv ≤ units.length) ∧
    (∀ (w : GitWorld) csv (oracle : String → Except String String) gitErr,
      (runMain w csv oracle gitErr).2.2.isSome →
        (runMain w csv oracle gitErr).2.1.countP isPushEv = 0) := by
  refine ⟨fun f => rfl, fun e => rfl, ?_, fun w files e => rfl, ?_, ?_⟩
  · intro oracle p e h
    rw [generate_sql, h]
  · intro oracle units
    induction units with
    | nil => intro w; simp [runUnits]
    | cons u rest ih =>
      obtain ⟨k, rows⟩ := u
      intro w
      rcases hbp : build_prompt k rows with _ | prompt
      · simp [runUnits, hbp]
      · rcases hg : generate_sql oracle prompt with e | sql
        · simp [runUnits, hbp, hg, List.countP_cons, isGenerateEv]
        · have := ih (write_sql w LOCAL_REPO_PATH k.1 k.2 sql).1
          simp only [runUnits, hbp, hg, List.countP_cons, List.length_cons]
          simp [isGenerateEv]
          omega
  · intro w csv oracle gitErr h
    cases csv with
    | error f =>
      cases f with
      | fileNotFound g => simp [runMain, load_metadata]
      | otherFailure g => simp [runMain, load_metadata]
    | ok df =>
      have hnp := runUnits_no_push oracle (group_by_target_table df)
      cases hrp : w.repoPresent with
      | true =>
        rcases hru : runUnits oracle w (group_by_target_table df) with ⟨W, T, R⟩
        have hT : T.countP isPushEv = 0 := by
          have := hnp w
          rw [hru] at this
          exact this
        cases R with
        | error e =>
          simp only [runMain, load_metadata, hrp, if_true, hru]
          simpa using hT
        | ok files =>
          cases gitErr with
          | some e =>
            simp only [runMain, load_metadata, hrp, if_true, hru,
              commit_and_push_run]
            simpa using hT
          | none =>
            rw [runMain] at h
            simp only [load_metadata, hrp, if_true, hru,
              commit_and_push_run] at h
            simp at h
      | false =>
        rcases hru : runUnits oracle (cloneRepo w) (group_by_target_table df)
          with ⟨W, T, R⟩
        have hT : T.countP isPushEv = 0 := by
          have := hnp (cloneRepo w)
          rw [hru] at this
          exact this
        cases R with
        | error e =>
          simp only [runMain, load_metadata, hrp, if_false,
            Bool.false_eq_true, hru]
          simp [List.countP_cons, List.countP_append, isPushEv, hT]
        | ok files =>
          cases gitErr with
          | some e =>
            simp only [runMain, load_metadata, hrp, if_false,
              Bool.false_eq_true, hru, commit_and_push_run]
            simp [List.countP_cons, List.countP_append, isPushEv, hT]
          | none =>
            rw [runMain] at h
            simp only [load_metadata, hrp, if_false, Bool.false_eq_true, hru,
              commit_and_push_run] at h
            simp at h

set_option maxRecDepth 20000 in
/-- Witness for `single_error_kind_no_retry` at concrete failing inputs. -/
theorem single_error_kind_no_retry_witness :
    generate_sql (fun _ => Except.error "refused") "p" =
      Except.error ⟨ErrKind.runtimeError,
        "Ollama SQL generation failed: " ++ "refused"⟩ ∧
    (runMain emptyWorld (Except.ok sampleDf) failOracle none).2.1.countP
      isPushEv = 0 := by
  refine ⟨single_error_kind_no_retry.2.2.1 (fun _ => Except.error "refused")
    "p" "refused" rfl, ?_⟩
  exact single_error_kind_no_retry.2.2.2.2.2 emptyWorld (Except.ok sampleDf)
    failOracle none (by decide)

/-! ### Event ordering: writes versus the reset -/

/-- The suffix of a trace strictly after its first fetch/reset event
(empty when no reset occurs). -/
def afterFirstReset : List Event → List Event
  | [] => []
  | e :: rest => if e = Event.fetchResetEvent then rest else afterFirstReset rest

theorem afterFirstReset_append_of_not_mem (A B : List Event)
    (h : Event.fetchResetEvent ∉ A) :
    afterFirstReset (A ++ B) = afterFirstReset B := by
  induction A with
  | nil => rfl
  | cons e rest ih =>
    have he : ¬ e = Event.fetchResetEvent := fun hh => h (by simp [hh])
    simp only [List.cons_append, afterFirstReset, if_neg he]
    exact ih (fun hh => h (by simp [hh]))

theorem runUnits_events_genwrite (oracle : String → Except String String)
    (units : List (TargetKey × List MappingRow)) :
    ∀ w : GitWorld, ∀ e ∈ (runUnits oracle w units).2.1,
      isGenerateEv e = true ∨ isWriteEv e = true := by
  induction units with
  | nil => intro w e he; simp [runUnits] at he
  | cons u rest ih =>
    obtain ⟨k, rows⟩ := u
    intro w e he
    rcases hbp : build_prompt k rows with _ | prompt
    · simp [runUnits, hbp] at he
    · rcases hg : generate_sql oracle prompt with er | sql
      · simp [runUnits, hbp, hg] at he
        simp [he, isGenerateEv]
      · simp only [runUnits, hbp, hg, List.mem_cons] at he
        rcases he with he | he | he
        · simp [he, isGenerateEv]
        · simp [he, isWriteEv]
        · exact ih _ e he

theorem runUnits_no_reset (oracle : String → Except String String)
    (units : List (TargetKey × List MappingRow)) (w : GitWorld) :
    Event.fetchResetEvent ∉ (runUnits oracle w units).2.1 := by
  intro h
  rcases runUnits_events_genwrite oracle units w Event.fetchResetEvent h with hh | hh
  · simp [isGenerateEv] at hh
  · simp [isWriteEv] at hh

theorem runUnits_no_clone (oracle : String → Except String String)
    (units : List (TargetKey × List MappingRow)) (w : GitWorld) :
    Event.cloneEvent ∉ (runUnits oracle w units).2.1 := by
  intro h
  rcases runUnits_events_genwrite oracle units w Event.cloneEvent h with hh | hh
  · simp [isGenerateEv] at hh
  · simp [isWriteEv] at hh

theorem commit_and_push_no_clone (w : GitWorld) (files : List String) :
    Event.cloneEvent ∉ (commit_and_push w files).2 := by
  intro h
  rcases hd : isDirty (stageFiles (resetHard w) files) with _ | _
  · simp only [commit_and_push, hd, Bool.false_eq_true, if_false] at h
    simp at h
  · simp only [commit_and_push, hd, if_true] at h
    simp at h

theorem afterFirstReset_commit_and_push_no_write (w : GitWorld)
    (files : List String) :
    ∀ e ∈ afterFirstReset (commit_and_push w files).2, isWriteEv e = false := by
  intro e he
  rcases hd : isDirty (stageFiles (resetHard w) files) with _ | _
  · simp only [commit_and_push, hd, Bool.false_eq_true, if_false] at he
    simp only [afterFirstReset, if_pos rfl] at he
    rcases List.mem_map.mp he with ⟨f, _, hf⟩
    simp [← hf, isWriteEv]
  · simp only [commit_and_push, hd, if_true] at he
    have : afterFirstReset (Event.fetchResetEvent ::
        (files.map Event.stageEvent ++
          [Event.commitEvent commitMessage, Event.pushEvent])) =
        files.map Event.stageEvent ++
          [Event.commitEvent commitMessage, Event.pushEvent] := by
      simp [afterFirstReset]
    rw [show (Event.fetchResetEvent :: files.map Event.stageEvent ++
        [Event.commitEvent commitMessage, Event.pushEvent]) =
        (Event.fetchResetEvent :: (files.map Event.stageEvent ++
        [Event.commitEvent commitMessage, Event.pushEvent])) from by simp] at he
    rw [this] at he
    rcases List.mem_append.mp he with hm | hm
    · rcases List.mem_map.mp hm with ⟨f, _, hf⟩
      simp [← hf, isWriteEv]
    · simp at hm
      rcases hm with hm | hm <;> simp [hm, isWriteEv]

theorem afterFirstReset_eq_nil_of_not_mem (L : List Event)
    (h : Event.fetchResetEvent ∉ L) : afterFirstReset L = [] := by
  have := afterFirstReset_append_of_not_mem L [] h
  simpa using this

/-- Claim C1 (amended): the driver clones fresh — matching the remote tip —
before generation only when the working copy is absent; when the copy already
exists nothing is cloned or reset before the loop: the fetch/hard-reset
happens inside the synchronizer after every artifact is written, so no write
event ever follows the reset event. -/
theorem acquire_clone_only_reset_in_sync (w : GitWorld)
    (csv : Except CsvFailure (List MappingRow))
    (oracle : String → Except String String) (gitErr : Option String) :
    ((cloneRepo w).disk = w.remote ∧ (cloneRepo w).head = w.remote ∧
      (cloneRepo w).index = w.remote) ∧
    (∀ df, csv = Except.ok df → w.repoPresent = false →
      (runMain w csv oracle gitErr).2.1.head? = some Event.cloneEvent) ∧
    (w.repoPresent = true →
      Event.cloneEvent ∉ (runMain w csv oracle gitErr).2.1) ∧
    (∀ e ∈ afterFirstReset (runMain w csv oracle gitErr).2.1,
      isWriteEv e = false) := by
  refine ⟨⟨rfl, rfl, rfl⟩, ?_, ?_, ?_⟩
  · intro df hdf hrp
    subst hdf
    simp only [runMain, load_metadata, hrp, Bool.false_eq_true, if_false]
    rcases hru : runUnits oracle (cloneRepo w) (group_by_target_table df)
      with ⟨W, T, R⟩
    cases R with
    | error e => simp
    | ok files =>
      cases gitErr with
      | some e => simp [commit_and_push_run]
      | none => simp [commit_and_push_run]
  · intro hrp h
    cases csv with
    | error f =>
      cases f with
      | fileNotFound g => simp [runMain, load_metadata] at h
      | otherFailure g => simp [runMain, load_metadata] at h
    | ok df =>
      simp only [runMain, load_metadata, hrp, if_true] at h
      rcases hru : runUnits oracle w (group_by_target_table df) with ⟨W, T, R⟩
      rw [hru] at h
      have hncT : Event.cloneEvent ∉ T := by
        have := runUnits_no_clone oracle (group_by_target_table df) w
        rw [hru] at this
        simpa using this
      cases R with
      | error e =>
        simp at h
        exact hncT h
      | ok files =>
        cases gitErr with
        | some e =>
          simp [commit_and_push_run] at h
          exact hncT h
        | none =>
          simp [commit_and_push_run] at h
          rcases h with h | h
          · exact hncT h
          · exact commit_and_push_no_clone W files h
  · intro e he
    cases csv with
    | error f =>
      cases f with
      | fileNotFound g => simp [runMain, load_metadata, afterFirstReset] at he
      | otherFailure g => simp [runMain, load_metadata, afterFirstReset] at he
    | ok df =>
      cases hrp : w.repoPresent with
      | true =>
        simp only [runMain, load_metadata, hrp, if_true] at he
        rcases hru : runUnits oracle w (group_by_target_table df) with ⟨W, T, R⟩
        rw [hru] at he
        have hnrT : Event.fetchResetEvent ∉ T := by
          have := runUnits_no_reset oracle (group_by_target_table df) w
          rw [hru] at this
          simpa using this
        cases R with
        | error er =>
          rw [afterFirstReset_eq_nil_of_not_mem _ (by simpa using hnrT)] at he
          simp at he
        | ok files =>
          cases gitErr with
          | some er =>
            simp only [commit_and_push_run] at he
            rw [afterFirstReset_eq_nil_of_not_mem _ (by simpa using hnrT)] at he
            simp at he
          | none =>
            simp only [commit_and_push_run] at he
            rw [afterFirstReset_append_of_not_mem _ _ (by simpa using hnrT)] at he
            exact afterFirstReset_commit_and_push_no_write W files e he
      | false =>
        simp only [runMain, load_metadata, hrp, Bool.false_eq_true, if_false] at he
        rcases hru : runUnits oracle (cloneRepo w) (group_by_target_table df)
          with ⟨W, T, R⟩
        rw [hru] at he
        have hnrT : Event.fetchResetEvent ∉ T := by
          have := runUnits_no_reset oracle (group_by_target_table df) (cloneRepo w)
          rw [hru] at this
          simpa using this
        have hnrCT : Event.fetchResetEvent ∉ [Event.cloneEvent] ++ T := by
          intro hh
          rcases List.mem_append.mp hh with hh | hh
          · simp at hh
          · exact hnrT hh
        cases R with
        | error er =>
          rw [afterFirstReset_eq_nil_of_not_mem _ (by simpa using hnrCT)] at he
          simp at he
        | ok files =>
          cases gitErr with
          | some er =>
            simp only [commit_and_push_run] at he
            rw [afterFirstReset_eq_nil_of_not_mem _ (by simpa using hnrCT)] at he
            simp at he
          | none =>
            simp only [commit_and_push_run] at he
            rw [afterFirstReset_append_of_not_mem _ _ (by simpa using hnrCT)] at he
            exact afterFirstReset_commit_and_push_no_write W files e he

/-- An always-succeeding oracle. -/
def okOracle : String → Except String String := fun _ => Except.ok "SELECT 1"

/-- An existing working copy whose tracked content drifted from the remote
tip: the remote already tracks the orders artifact, the local head does not. -/
def driftWorld : GitWorld :=
  { repoPresent := true, disk := [], dirs := [], index := [], head := [],
    remote := [(unitPath ("analytics", "orders"), "remote content\n")] }

set_option maxRecDepth 20000 in
/-- Claim C1, counterexample: with an existing working copy whose tracked
content differs from the remote tip, the run writes its first artifact
before any fetch/reset or clone — the write event precedes the only reset
event and no clone happens — so at first-write time the tracked content does
not equal the remote tip. -/
theorem reset_after_write_counterexample :
    ((runMain driftWorld (Except.ok [sampleRow1]) okOracle none).2.1.takeWhile
      (fun e => !(e == Event.fetchResetEvent))).any isWriteEv = true ∧
    Event.fetchResetEvent ∈
      (runMain driftWorld (Except.ok [sampleRow1]) okOracle none).2.1 ∧
    Event.cloneEvent ∉
      (runMain driftWorld (Except.ok [sampleRow1]) okOracle none).2.1 ∧
    fmEqOn [unitPath ("analytics", "orders")] driftWorld.head driftWorld.remote =
      false := by
  refine ⟨by decide, by decide, by decide, by decide⟩

/-- A fresh environment in which the working copy does not exist yet. -/
def absentWorld : GitWorld :=
  { repoPresent := false, disk := [], dirs := [], index := [], head := [],
    remote := [] }

set_option maxRecDepth 20000 in
/-- Witness for `acquire_clone_only_reset_in_sync` at concrete runs. -/
theorem acquire_clone_only_reset_in_sync_witness :
    (runMain absentWorld (Except.ok sampleDf) failOracle none).2.1.head? =
      some Event.cloneEvent ∧
    Event.cloneEvent ∉
      (runMain emptyWorld (Except.ok [sampleRow1]) okOracle none).2.1 :=
  ⟨(acquire_clone_only_reset_in_sync absentWorld (Except.ok sampleDf)
      failOracle none).2.1 sampleDf rfl rfl,
   (acquire_clone_only_reset_in_sync emptyWorld (Except.ok [sampleRow1])
      okOracle none).2.2.1 rfl⟩
